import Mathlib

/-!
Verification development for the cygnus collection-and-cache pipeline.

The Go sources are shallowly embedded: the DTO structs keep only the fields
the program reads, pointer-valued fields that the program nil-checks are
`Option`s, the external Singularity client is a parameter (a function from
call index to its returned value-and-error pair, mirroring the Go multiple
return), and a nil-pointer dereference that Go would turn into a runtime
panic is an `Except`-style error value.
-/

namespace Cygnus

/-- Fields of dtos.SingularityTaskId read by main.go. -/
structure SingularityTaskId where
  id : String
  requestId : String
  deployId : String
deriving DecidableEq

/-- One timestamped status transition (dtos.SingularityTaskHistoryUpdate). -/
structure TaskHistoryUpdate where
  timestamp : Int
  taskState : String
deriving DecidableEq

/-- The single actively-running state,
dtos.SingularityTaskHistoryUpdateExtendedTaskStateTASK_RUNNING. -/
def taskStateRunning : String := "TASK_RUNNING"

/-- One name/value pair of an environment block. -/
structure EnvVar where
  name : String
  value : String
deriving DecidableEq

/-- dtos.Environment: the Variables list. -/
structure Environment where
  vars : List EnvVar
deriving DecidableEq

/-- dtos.DockerInfo: the Image field. -/
structure DockerInfo where
  image : String
deriving DecidableEq

/-- Mesos container info: the Docker pointer field. -/
structure MesosContainer where
  docker : Option DockerInfo
deriving DecidableEq

/-- Mesos command info: the Environment pointer field. -/
structure CommandInfo where
  environment : Option Environment
deriving DecidableEq

/-- Mesos task info: Command and Container pointer fields. -/
structure MesosTask where
  command : Option CommandInfo
  container : Option MesosContainer
deriving DecidableEq

/-- dtos.SingularityTask: the MesosTask pointer field. -/
structure SingularityTask where
  mesosTask : Option MesosTask
deriving DecidableEq

/-- dtos.SingularityTaskHistory: Task pointer and TaskUpdates list. -/
structure SingularityTaskHistory where
  task : Option SingularityTask
  taskUpdates : List TaskHistoryUpdate
deriving DecidableEq

/-- Fields of dtos.SingularityRequest read by main.go and the store.
main.go dereferences req.Request.Id on the orchestrator loop before any
fetch runs, so the Request pointer is modelled as an always-present field. -/
structure SingularityRequest where
  id : String
  instances : Int
  requestType : String
deriving DecidableEq

/-- dtos.SingularityRequestParent: Request plus State. -/
structure SingularityRequestParent where
  request : SingularityRequest
  state : String
deriving DecidableEq

/-- One element of dtos.SingularityTaskIdHistoryList: the TaskId field
that getTasks dereferences. -/
structure SingularityTaskIdHistory where
  taskId : SingularityTaskId
deriving DecidableEq

/-- The option fields consumed by the core pipeline (opts.go). -/
structure Options where
  printInactiveTasks : Bool
  printStatus : Bool
  printDockerImage : Bool
  env : List String
deriving DecidableEq

/-- The record main.go sends through the lines channel.  Every literal of
this type in the source is built at the single send site in getTask with a
checked non-nil id, so taskId is plain; the SingularityTask pointer is kept
optional because the accessors dereference it. -/
structure taskDesc where
  taskId : SingularityTaskId
  task : Option SingularityTask
  requestParent : Option SingularityRequestParent
  lastUpdate : Option TaskHistoryUpdate
  dockerInfo : Option DockerInfo
  url : String
deriving DecidableEq

/-! ## Dedup Orchestrator (main.go getTasks / main loop) -/

/-- main.go getTasks: walk one history listing, skip ids already in the
seen map, otherwise record the id as seen and dispatch a fetch for it.
Returns the updated seen set together with the list of taskIDs dispatched
by this call, in dispatch order. -/
def getTasks (histo : List SingularityTaskIdHistory) (seen : List String) :
    List String × List String :=
  match histo with
  | [] => (seen, [])
  | h :: rest =>
    if h.taskId.id ∈ seen then
      getTasks rest seen
    else
      let p := getTasks rest (h.taskId.id :: seen)
      (p.1, h.taskId.id :: p.2)

/-- main.go main loop: the sequence of history listings (inactive and
active, per request) is handed to getTasks one after the other, threading
the single seen set.  Returns the final seen set and the concatenation of
all dispatched taskIDs. -/
def runDispatch (histos : List (List SingularityTaskIdHistory))
    (seen : List String) : List String × List String :=
  match histos with
  | [] => (seen, [])
  | h :: rest =>
    let p := getTasks h seen
    let q := runDispatch rest p.1
    (q.1, p.2 ++ q.2)

/-- All taskIDs occurring in a batch of history listings. -/
def histoIds (histos : List (List SingularityTaskIdHistory)) : List String :=
  histos.flatMap (fun h => h.map (fun e => e.taskId.id))

/-! ## Retrying Fetcher (main.go getTask) -/

/-- One return of client.GetHistoryForTask: the history value together with
the error of the Go pair return.  The external client is modelled as total
(never a nil history), matching getTask, which reads
taskHistory.TaskUpdates unconditionally on every attempt. -/
structure Attempt where
  history : SingularityTaskHistory
  err : Option String
deriving DecidableEq

/-- The mutable locals of the getTask retry loop, plus the number of client
calls made so far (used to index the client). -/
structure RetryState where
  lastUpdate : Option TaskHistoryUpdate
  history : Option SingularityTaskHistory
  task : Option SingularityTask
  err : Option String
  calls : Nat
deriving DecidableEq

/-- Zero values of the getTask locals before the loop. -/
def initRetryState : RetryState := ⟨none, none, none, none, 0⟩

/-- main.go getTask retry loop (`for i := 0; i < 3; i++`): each iteration
overwrites taskHistory and err with the client return pair, points lastUpdate
at the first element of a non-empty TaskUpdates list, and on a nil error
stores the Task of that history and leaves the loop. -/
def retryLoop (client : Nat → Attempt) : Nat → RetryState → RetryState
  | 0, s => s
  | fuel + 1, s =>
    let a := client s.calls
    let lu := match a.history.taskUpdates with
      | [] => s.lastUpdate
      | u :: _ => some u
    match a.err with
    | none =>
      { lastUpdate := lu, history := some a.history, task := a.history.task,
        err := none, calls := s.calls + 1 }
    | some e =>
      retryLoop client fuel
        { lastUpdate := lu, history := some a.history, task := s.task,
          err := some e, calls := s.calls + 1 }

/-- Body of the post-loop maximum scan: replace the accumulator whenever a
strictly larger timestamp is encountered (ties keep the accumulator). -/
def mOp (a b : TaskHistoryUpdate) : TaskHistoryUpdate :=
  if b.timestamp > a.timestamp then b else a

/-- main.go getTask post-loop scan over taskHistory.TaskUpdates. -/
def goScan (acc : TaskHistoryUpdate) : List TaskHistoryUpdate → TaskHistoryUpdate
  | [] => acc
  | u :: rest => goScan (mOp acc u) rest

/-- Latest-update selection as performed after a successful fetch: scan the
TaskUpdates of the final (successful) history starting from the loop
lastUpdate.  The outer `none` encodes the nil dereference that
`lastUpdate.Timestamp` would hit if the scan ran with a nil lastUpdate. -/
def selectLastUpdate (r : RetryState) : Option (Option TaskHistoryUpdate) :=
  match r.history with
  | none => none
  | some th =>
    match r.lastUpdate, th.taskUpdates with
    | some l, ups => some (some (goScan l ups))
    | none, [] => some none
    | none, _ :: _ => none

/-- Latest-update selection as the spec words it: the update with the
maximum timestamp, ties resolving to the one encountered first in the
scan; none for an empty list. -/
def specLatest : List TaskHistoryUpdate → Option TaskHistoryUpdate
  | [] => none
  | u :: rest =>
    match specLatest rest with
    | none => some u
    | some v => if v.timestamp > u.timestamp then some v else some u

/-- Request correlation, main.go getTask: linear scan of the request list,
first RequestParent whose request id equals that of the task, nil when absent. -/
def correlate (reqs : List SingularityRequestParent)
    (id : SingularityTaskId) : Option SingularityRequestParent :=
  reqs.find? (fun req => req.request.id == id.requestId)

/-- Terminal outcome of one dispatched fetch.  `dropped` is a logged soft
or hard failure that decrements the wait counter and sends nothing;
`nilDeref` is a Go nil-pointer dereference (a runtime panic); `sent` is
the send of the assembled record on the lines channel. -/
inductive GetTaskResult where
  | dropped (reason : String)
  | nilDeref
  | sent (td : taskDesc)
deriving DecidableEq

/-- main.go getTask: nil-id check, bounded retry, error check, latest-update
scan, the debug call that dereferences mesos.Container.Docker, the
command/environment checks, docker extraction, request correlation, and the
send on the lines channel. -/
def getTask (url : String) (idOpt : Option SingularityTaskId)
    (reqs : List SingularityRequestParent) (client : Nat → Attempt) :
    GetTaskResult :=
  match idOpt with
  | none => .dropped "missing id"
  | some id =>
    let r := retryLoop client 3 initRetryState
    match r.err with
    | some _ => .dropped "fetch error"
    | none =>
      match selectLastUpdate r with
      | none => .nilDeref
      | some lastUpdate =>
        match r.task with
        | none => .nilDeref
        | some t =>
          match t.mesosTask with
          | none => .dropped "missing mesos task info"
          | some mesos =>
            match mesos.container with
            | none => .nilDeref
            | some c =>
              match mesos.command with
              | none => .dropped "no command"
              | some cmd =>
                match cmd.environment with
                | none => .dropped "no environment"
                | some _ =>
                  .sent ⟨id, some t, correlate reqs id, lastUpdate,
                    c.docker, url⟩

/-! ## Sink (main.go tabRows, printable, taskValues) -/

/-- main.go taskDesc.Env(): dereferences td.SingularityTask.MesosTask (an
error value when the embedded task pointer is nil), then returns nil when
mesos or command is missing, else the Environment of the command. -/
def taskDesc.envGo (td : taskDesc) : Except Unit (Option Environment) :=
  match td.task with
  | none => .error ()
  | some t =>
    match t.mesosTask with
    | none => .ok none
    | some mesos =>
      match mesos.command with
      | none => .ok none
      | some cmd => .ok cmd.environment

/-- Name lookup in the map main.go taskValues builds from env.Variables:
Go map assignment makes later duplicates overwrite earlier ones. -/
def lookupVar (vs : List EnvVar) (e : String) : Option String :=
  (vs.reverse.find? (fun v => v.name == e)).map (fun v => v.value)

/-- main.go taskValues: one column per requested environment name, then
optional status and docker-image columns.  The env.Variables read is
unguarded, so a nil Env() result is a nil dereference (error value). -/
def taskValues (opts : Options) (td : taskDesc) : Except Unit (List String) :=
  match td.envGo with
  | .error _ => .error ()
  | .ok none => .error ()
  | .ok (some env) =>
    let vals := opts.env.map (fun e => (lookupVar env.vars e).getD "")
    let vals := if opts.printStatus then
        vals ++ [match td.lastUpdate with
                 | some u => u.taskState
                 | none => "UNKNOWN"]
      else vals
    let vals := if opts.printDockerImage then
        vals ++ [match td.dockerInfo with
                 | some d => d.image
                 | none => "<? none ?>"]
      else vals
    .ok vals

/-- main.go printable: the debug call evaluates
desc.SingularityTaskHistoryUpdate.TaskState as an argument before the
predicate runs, which is a nil dereference when the update is nil; with a
non-nil update the own nil-test disjunct of the predicate is false and the
result is the flag or the running-state comparison. -/
def printableGo (desc : taskDesc) (opts : Options) : Except Unit Bool :=
  match desc.lastUpdate with
  | none => .error ()
  | some u => .ok (opts.printInactiveTasks || (u.taskState == taskStateRunning))

/-- Modelled from the spec: the printability predicate as the spec states
it, for comparison with printableGo - printable iff include-inactive is
set, or the record has no status update at all, or its status equals the
single actively-running state. -/
def claimPrintable (desc : taskDesc) (opts : Options) : Bool :=
  opts.printInactiveTasks ||
  desc.lastUpdate.isNone ||
  (match desc.lastUpdate with
   | some u => u.taskState == taskStateRunning
   | none => false)

/-- What one iteration of main.go tabRows does to one record: whether the
row is printed, and that a cache write is dispatched unconditionally.  The
printability test runs first, so its nil dereference also prevents the
cache dispatch. -/
structure SinkEffect where
  printed : Bool
  cacheDispatched : Bool
deriving DecidableEq

/-- One iteration of the tabRows consumer loop on one record. -/
def tabRowsStep (desc : taskDesc) (opts : Options) : Except Unit SinkEffect :=
  match printableGo desc opts with
  | .error e => .error e
  | .ok p => .ok ⟨p, true⟩

/-! ## Cache Store: addTask failure policy (part_000 addTask) -/

/-- Injected per-statement results for the fallible store writes performed
by addTask: the addReq call, the task insert, each env-pair insert and the
docker-image insert.  `some` is a write error. -/
structure WriteOutcomes where
  reqErr : Option String
  taskErr : Option String
  envErrs : List (Option String)
  dockerErr : Option String

/-- Observable effects of one addTask call: the debug-logged error
messages and which rows were written.  That the function returns an
effects value at all (never an error of its own) is the no-propagation
half of the failure policy. -/
structure AddTaskEffects where
  logged : List String
  reqResolved : Bool
  taskInserted : Bool
  envInserted : Nat
  dockerInserted : Bool
deriving DecidableEq

/-- Pair each env variable with its injected write outcome (missing
outcomes default to success). -/
def padZip : List EnvVar → List (Option String) → List (EnvVar × Option String)
  | [], _ => []
  | v :: vs, [] => (v, none) :: padZip vs []
  | v :: vs, e :: es => (v, e) :: padZip vs es

/-- The env insert loop of addTask (part_000 lines 127-132): the Exec
return is discarded, and the `if err != nil` test reads the enclosing
stale err variable of the enclosing function - which is nil on this path - so a failed
env insert is skipped but produces no log line. -/
def envLoop (staleErr : Option String) : List (EnvVar × Option String) → Nat × List String
  | [] => (0, [])
  | (v, o) :: rest =>
    let p := envLoop staleErr rest
    ((if o.isNone then 1 else 0) + p.1,
     (if staleErr.isSome then ["error inserting task env pair " ++ v.name] else []) ++ p.2)

/-- part_000 addTask effects model, from the addReq call on.  The addSing
error (line 90) is overwritten by the addReq error without being checked,
so it is not an input here.  The docker insert mirrors the env loop: its
Exec return is discarded and the stale nil err is what gets tested. -/
def addTaskEffects (desc : taskDesc) (oc : WriteOutcomes) :
    Except Unit AddTaskEffects :=
  match oc.reqErr with
  | some _ => .ok ⟨["error getting request"], false, false, 0, false⟩
  | none =>
    match oc.taskErr with
    | some _ => .ok ⟨["error inserting task"], true, false, 0, false⟩
    | none =>
      match desc.envGo with
      | .error _ => .error ()
      | .ok none => .error ()
      | .ok (some env) =>
        let staleErr : Option String := none
        let p := envLoop staleErr (padZip env.vars oc.envErrs)
        let dockerLog := if desc.dockerInfo.isSome && staleErr.isSome then
            ["error inserting task docker image"] else []
        let dockerIns := desc.dockerInfo.isSome && oc.dockerErr.isNone
        .ok ⟨p.2 ++ dockerLog, true, true, p.1, dockerIns⟩

/-! ## Cache Store: rows, addReq freshness, groom (part_000) -/

/-- A persisted req row. -/
structure ReqRow where
  reqId : Int
  singularityId : Int
  requestIdent : String
  instances : Int
  reqType : String
  state : String
  capturedAt : Int
deriving DecidableEq

/-- A persisted task row. -/
structure TaskRow where
  taskId : Int
  reqId : Int
  deployIdent : String
  status : String
deriving DecidableEq

/-- A persisted env row. -/
structure EnvRow where
  envId : Int
  taskId : Int
  name : String
  value : String
deriving DecidableEq

/-- A persisted docker_image row. -/
structure DockerRow where
  dockerImageId : Int
  taskId : Int
  imageName : String
deriving DecidableEq

/-- A persisted singularity row. -/
structure SingRow where
  singularityId : Int
  url : String
deriving DecidableEq

/-- The sqlite database contents the store manipulates: the
_database_metadata_ fingerprint and created entries, the five tables, and
the autoincrement counters (sqlite row ids start at 1, so 0 is never a
valid req_id - addReq uses 0 as its not-found sentinel). -/
structure DBState where
  fingerprint : Option String
  created : Option String
  sings : List SingRow
  reqs : List ReqRow
  tasks : List TaskRow
  envs : List EnvRow
  dockers : List DockerRow
  nextReqId : Int
  nextTaskId : Int
  nextEnvId : Int
  nextDockerId : Int
  nextSingId : Int
deriving DecidableEq

/-- time.Second in the nanoseconds timestamps of the model. -/
def oneSecond : Int := 1000000000

/-- Delete one req row by id with the on-delete-cascade of the schema: its task
children go, and the env and docker_image children of those tasks go. -/
def cascadeDeleteReq (st : DBState) (rid : Int) : DBState :=
  let deadTasks := (st.tasks.filter (fun t => t.reqId == rid)).map (fun t => t.taskId)
  { st with
    reqs := st.reqs.filter (fun r => !(r.reqId == rid)),
    tasks := st.tasks.filter (fun t => !(t.reqId == rid)),
    envs := st.envs.filter (fun e => !(deadTasks.contains e.taskId)),
    dockers := st.dockers.filter (fun d => !(deadTasks.contains d.taskId)) }

/-- Insert a fresh req row (captured_at is the now passed by the caller) and return
its LastInsertId. -/
def insertReq (st : DBState) (singID : Int) (reqID : String) (instances : Int)
    (reqType stv : String) (now : Int) : DBState × Int :=
  ({ st with
      reqs := st.reqs ++ [⟨st.nextReqId, singID, reqID, instances, reqType, stv, now⟩],
      nextReqId := st.nextReqId + 1 },
   st.nextReqId)

/-- part_000 addReq: select the first row for this request_ident (id and
captureTime stay zero-valued when there is none); a found row younger than
one second relative to the process-start now is returned as is; a found
older row is deleted (cascading) before the fresh insert; otherwise insert
fresh. -/
def addReq (now : Int) (st : DBState) (singID : Int) (instances : Int)
    (reqID reqType stv : String) : DBState × Int :=
  let found := st.reqs.find? (fun r => r.requestIdent == reqID)
  let id : Int := match found with | some r => r.reqId | none => 0
  let captureTime : Int := match found with | some r => r.capturedAt | none => 0
  if id ≠ 0 then
    if now - captureTime < oneSecond then (st, id)
    else insertReq (cascadeDeleteReq st id) singID reqID instances reqType stv now
  else insertReq st singID reqID instances reqType stv now

/-- part_000 fingerPrintSchema: each statement is written into the hash
prefixed by its ordinal position and a colon, newline-terminated.  The
sha256-then-base64 step is abstracted as the identity on that tagged
concatenation (an injective-hash abstraction), so the modelled fingerprint
is the exact byte string the Go code hashes. -/
def fingerPrintSchema (schema : List String) : String :=
  String.join (schema.enum.map (fun p => toString p.1 ++ ":" ++ p.2 ++ "\n"))

/-- The database state groom leaves behind after a destructive rebuild:
every table dropped and recreated empty, the new fingerprint and the
creation timestamp stored in _database_metadata_. -/
def groomRebuild (fp : String) (stamp : String) : DBState :=
  { fingerprint := some fp, created := some stamp,
    sings := [], reqs := [], tasks := [], envs := [], dockers := [],
    nextReqId := 1, nextTaskId := 1, nextEnvId := 1, nextDockerId := 1,
    nextSingId := 1 }

/-- part_000 groom: read the stored fingerprint (a query error - no row -
counts as a mismatch), and on any mismatch clobber and rebuild; on a match
do nothing. -/
def groom (st : DBState) (schema : List String) (stamp : String) : DBState :=
  let fp := fingerPrintSchema schema
  match st.fingerprint with
  | some tgp => if tgp == fp then st else groomRebuild fp stamp
  | none => groomRebuild fp stamp

/-- The schema statement list compiled into part_000, byte for byte. -/
def cygnusSchema : List String :=
  ["pragma foreign_keys = ON;",
   "create table _database_metadata_(name text not null unique on conflict replace, value text);",
   "create table singularity(\n\t\tsingularity_id integer primary key autoincrement,\n\t\turl string\n\t);",
   "create table req(\n\t\treq_id integer primary key autoincrement,\n\t\tsingularity_id references singularity on delete cascade,\n\t\trequest_ident string,\n\t\tinstances integer,\n\t\ttype string,\n\t\tstate string,\n\t\tcaptured_at timestamp\n\t);",
   "create table task(\n\t\ttask_id integer primary key autoincrement,\n\t\treq_id references req on delete cascade,\n\t\tdeploy_ident string,\n\t\tstatus string\n\t);",
   "create table env(\n\t\tenv_id integer primary key autoincrement,\n\t\ttask_id references task on delete cascade,\n\t\tname string,\n\t\tvalue string\n\t);",
   "create table docker_image(\n\t\tdocker_image_id integer primary key autoincrement,\n\t\ttask_id references task on delete cascade,\n\t\timage_name string\n\t);"]

/-- Swap the elements of a string list at two positions. -/
def listSwap (l : List String) (i j : Nat) : List String :=
  (l.set i (l.getD j "")).set j (l.getD i "")

/-! ## Completion barrier trace model (main.go tabRows lines 196-201)

The handoff of one record from tabRows to its cache write involves three
concurrent units of main.go: the consumer loop, which runs the spawned
cache closure `go func(line){ wait.Add(1); db.addTask(line); wait.Done() }`
and then its own `wait.Done()`; the spawned closure itself; and the main
flow blocked in `wait.Wait()`.  The events below are those statements; the
counter starts at 1, the `wait.Add(1)` getTasks performed for this fetch
before spawning it. -/

/-- Atomic events of the one-record completion-barrier protocol. -/
inductive WgEv where
  | spawnCache
  | doneOuter
  | addCache
  | cacheWrite
  | doneCache
  | exitMain
deriving DecidableEq

/-- Contribution of each event to the WaitGroup counter. -/
def wgDelta : WgEv → Int
  | .doneOuter => -1
  | .addCache => 1
  | .doneCache => -1
  | _ => 0

/-- Counter value after a trace, starting from the 1 registered for this
fetch by getTasks. -/
def wgCounter (tr : List WgEv) : Int := 1 + (tr.map wgDelta).sum

/-- Program order of the tabRows consumer for one record. -/
def consumerThread : List WgEv := [.spawnCache, .doneOuter]

/-- Program order of the spawned cache-write closure. -/
def cacheThread : List WgEv := [.addCache, .cacheWrite, .doneCache]

/-- zs is an interleaving of xs and ys (each kept in order). -/
def isShuffle : List WgEv → List WgEv → List WgEv → Bool
  | [], ys, zs => ys == zs
  | x :: xs, [], zs => (x :: xs) == zs
  | _ :: _, _ :: _, [] => false
  | x :: xs, y :: ys, z :: zs =>
    (x == z && isShuffle xs (y :: ys) zs) ||
    (y == z && isShuffle (x :: xs) ys zs)

/-- Index of the first occurrence of an event in a trace. -/
def evIdx (e : WgEv) : List WgEv → Nat
  | [] => 0
  | x :: xs => if x == e then 0 else evIdx e xs + 1

/-- A schedule the synchronization of main.go admits for one record: an
interleaving of the three units in which the spawned closure starts only
after the go statement, and the exit of the main flow happens at a point where
the counter has reached zero (all WaitGroup operations are linearizable,
so wait.Wait() may return at any such point). -/
def admissible (tr : List WgEv) : Prop :=
  (∃ w, isShuffle consumerThread cacheThread w = true ∧
    isShuffle w [WgEv.exitMain] tr = true) ∧
  evIdx .spawnCache tr < evIdx .addCache tr ∧
  wgCounter (tr.take (evIdx .exitMain tr)) = 0

/-! ## Sample data used by the concrete witnesses -/

/-- A fully populated mesos task: one env variable, a docker image. -/
def sampleTask : SingularityTask :=
  ⟨some ⟨some ⟨some ⟨[⟨"TASK_HOST", "h1"⟩]⟩⟩, some ⟨some ⟨"img:1"⟩⟩⟩⟩

/-- A history for sampleTask with two updates, the maximal timestamp 9
appearing twice (first as state B). -/
def sampleHistory : SingularityTaskHistory :=
  ⟨some sampleTask, [⟨5, "TASK_LAUNCHED"⟩, ⟨9, "B"⟩, ⟨9, "C"⟩]⟩

/-- A client that succeeds on the first call with sampleHistory. -/
def sampleClient : Nat → Attempt := fun _ => ⟨sampleHistory, none⟩

/-- A client whose first two calls fail (with empty histories) and whose
third succeeds with sampleHistory. -/
def sampleFlakyClient : Nat → Attempt := fun k =>
  if k < 2 then ⟨⟨none, []⟩, some "transient"⟩ else ⟨sampleHistory, none⟩

/-- A client that fails on every call. -/
def sampleDeadClient : Nat → Attempt := fun _ => ⟨⟨none, []⟩, some "down"⟩

/-- The task identifier used by the witnesses. -/
def sampleId : SingularityTaskId := ⟨"t1", "r1", "d1"⟩

/-- A two-request listing in which the second entry owns sampleId. -/
def sampleReqs : List SingularityRequestParent :=
  [⟨⟨"r0", 1, "SERVICE"⟩, "ACTIVE"⟩, ⟨⟨"r1", 2, "SERVICE"⟩, "ACTIVE"⟩]

/-- A record as delivered on the lines channel for sampleId. -/
def sampleDesc : taskDesc :=
  ⟨sampleId, some sampleTask, none, some ⟨9, "B"⟩, some ⟨"img:1"⟩, "http://s"⟩

/-- A channel record whose task history had no updates: the status is nil. -/
def sampleNilUpdateDesc : taskDesc :=
  ⟨sampleId, some sampleTask, none, none, some ⟨"img:1"⟩, "http://s"⟩

/-- Options with every flag off and no requested env names. -/
def defaultOpts : Options := ⟨false, false, false, []⟩

/-- A store state holding one req row (id 1, captured at time 0) with one
task child (id 1) and one env child, next free ids 2. -/
def sampleDB : DBState :=
  { fingerprint := some (fingerPrintSchema cygnusSchema),
    created := some "stamp",
    sings := [⟨1, "http://s"⟩],
    reqs := [⟨1, 1, "r1", 2, "SERVICE", "ACTIVE", 0⟩],
    tasks := [⟨1, 1, "d1", "TASK_RUNNING"⟩],
    envs := [⟨1, 1, "TASK_HOST", "h1"⟩],
    dockers := [⟨1, 1, "img:1"⟩],
    nextReqId := 2, nextTaskId := 2, nextEnvId := 2, nextDockerId := 2,
    nextSingId := 2 }

theorem getTasks_seen_subset (histo : List SingularityTaskIdHistory)
    (seen : List String) (x : String) (hx : x ∈ seen) :
    x ∈ (getTasks histo seen).1 := by
  induction histo generalizing seen with
  | nil => simpa [getTasks] using hx
  | cons h rest ih =>
    simp only [getTasks]
    split
    · exact ih seen hx
    · exact ih _ (List.mem_cons_of_mem _ hx)

theorem getTasks_dispatched_not_seen (histo : List SingularityTaskIdHistory)
    (seen : List String) (x : String)
    (hx : x ∈ (getTasks histo seen).2) : x ∉ seen := by
  induction histo generalizing seen with
  | nil => simp [getTasks] at hx
  | cons h rest ih =>
    simp only [getTasks] at hx
    split at hx
    · exact ih seen hx
    · rcases List.mem_cons.mp hx with rfl | hx2
      · assumption
      · intro hmem
        exact ih _ hx2 (List.mem_cons_of_mem _ hmem)

theorem getTasks_seen_mem (histo : List SingularityTaskIdHistory)
    (seen : List String) (x : String) :
    x ∈ (getTasks histo seen).1 ↔
      x ∈ (getTasks histo seen).2 ∨ x ∈ seen := by
  induction histo generalizing seen with
  | nil => simp [getTasks]
  | cons h rest ih =>
    simp only [getTasks]
    split
    · rw [ih]
    · rw [ih]
      constructor
      · intro hmem
        rcases hmem with hd | hs
        · exact Or.inl (List.mem_cons_of_mem _ hd)
        · rcases List.mem_cons.mp hs with rfl | hs2
          · exact Or.inl (List.mem_cons_self _ _)
          · exact Or.inr hs2
      · intro hmem
        rcases hmem with hd | hs
        · rcases List.mem_cons.mp hd with rfl | hd2
          · exact Or.inr (List.mem_cons_self _ _)
          · exact Or.inl hd2
        · exact Or.inr (List.mem_cons_of_mem _ hs)

theorem getTasks_dispatched_in_seen (histo : List SingularityTaskIdHistory)
    (seen : List String) (x : String)
    (hx : x ∈ (getTasks histo seen).2) : x ∈ (getTasks histo seen).1 :=
  (getTasks_seen_mem histo seen x).mpr (Or.inl hx)

theorem getTasks_dispatched_nodup (histo : List SingularityTaskIdHistory)
    (seen : List String) : (getTasks histo seen).2.Nodup := by
  induction histo generalizing seen with
  | nil => simp [getTasks]
  | cons h rest ih =>
    simp only [getTasks]
    split
    · exact ih seen
    · refine List.nodup_cons.mpr ⟨?_, ih _⟩
      intro hmem
      exact getTasks_dispatched_not_seen rest _ _ hmem
        (List.mem_cons_self _ _)

theorem getTasks_covers (histo : List SingularityTaskIdHistory)
    (seen : List String) (x : String)
    (hx : x ∈ histo.map (fun e => e.taskId.id)) (hns : x ∉ seen) :
    x ∈ (getTasks histo seen).2 := by
  induction histo generalizing seen with
  | nil => simp at hx
  | cons h rest ih =>
    simp only [List.map_cons, List.mem_cons] at hx
    simp only [getTasks]
    rcases hx with rfl | hx2
    · split
      · exact absurd (by assumption) hns
      · exact List.mem_cons_self _ _
    · split
      · exact ih seen hx2 hns
      · by_cases hsame : x = h.taskId.id
        · subst hsame
          exact List.mem_cons_self _ _
        · refine List.mem_cons_of_mem _ (ih _ hx2 ?_)
          simp [hns, hsame]

theorem runDispatch_not_seen (histos : List (List SingularityTaskIdHistory))
    (seen : List String) (x : String)
    (hx : x ∈ (runDispatch histos seen).2) : x ∉ seen := by
  induction histos generalizing seen with
  | nil => simp [runDispatch] at hx
  | cons h rest ih =>
    simp only [runDispatch, List.mem_append] at hx
    rcases hx with h1 | h2
    · exact getTasks_dispatched_not_seen h seen x h1
    · intro hmem
      exact ih _ h2 (getTasks_seen_subset h seen x hmem)

theorem runDispatch_nodup (histos : List (List SingularityTaskIdHistory))
    (seen : List String) : (runDispatch histos seen).2.Nodup := by
  induction histos generalizing seen with
  | nil => simp [runDispatch]
  | cons h rest ih =>
    simp only [runDispatch]
    refine List.Nodup.append (getTasks_dispatched_nodup h seen) (ih _) ?_
    intro x hx1 hx2
    exact runDispatch_not_seen rest _ x hx2
      (getTasks_dispatched_in_seen h seen x hx1)

theorem runDispatch_covers (histos : List (List SingularityTaskIdHistory))
    (seen : List String) (x : String)
    (hx : x ∈ histoIds histos) (hns : x ∉ seen) :
    x ∈ (runDispatch histos seen).2 := by
  induction histos generalizing seen with
  | nil => simp [histoIds] at hx
  | cons h rest ih =>
    simp only [histoIds, List.flatMap_cons, List.mem_append] at hx
    simp only [runDispatch, List.mem_append]
    rcases hx with h1 | h2
    · exact Or.inl (getTasks_covers h seen x h1 hns)
    · by_cases hin : x ∈ (getTasks h seen).1
      · rcases (getTasks_seen_mem h seen x).mp hin with hd | hs
        · exact Or.inl hd
        · exact absurd hs hns
      · exact Or.inr (ih _ h2 hin)

/-- C1: across a whole run (any sequence of history listings, active and
inactive, threaded through the single seen set on the orchestrator thread),
the dispatched-fetch list never repeats a taskID, a taskID already in the
seen set is never dispatched, and every taskID of the listings that was not
already seen is dispatched (hence, with no duplicates, exactly once). -/
theorem C1_dedup_dispatch (histos : List (List SingularityTaskIdHistory))
    (seen : List String) :
    (runDispatch histos seen).2.Nodup ∧
    (∀ tid ∈ seen, tid ∉ (runDispatch histos seen).2) ∧
    (∀ tid, tid ∈ histoIds histos → tid ∉ seen →
      tid ∈ (runDispatch histos seen).2) := by
  refine ⟨runDispatch_nodup histos seen, ?_, ?_⟩
  · intro tid hmem hd
    exact runDispatch_not_seen histos seen tid hd hmem
  · intro tid h1 h2
    exact runDispatch_covers histos seen tid h1 h2

/-- Witness for C1 at the spec scenario: the same taskID t1 appears in both
an inactive and an active listing; it is dispatched exactly once, while the
pre-seen id t0 is never dispatched. -/
theorem C1_dedup_dispatch_witness :
    (runDispatch
      [[⟨⟨"t1", "r1", "d1"⟩⟩], [⟨⟨"t1", "r1", "d1"⟩⟩, ⟨⟨"t0", "r1", "d1"⟩⟩]]
      ["t0"]).2.Nodup ∧
    (∀ tid ∈ ["t0"], tid ∉ (runDispatch
      [[⟨⟨"t1", "r1", "d1"⟩⟩], [⟨⟨"t1", "r1", "d1"⟩⟩, ⟨⟨"t0", "r1", "d1"⟩⟩]]
      ["t0"]).2) ∧
    (∀ tid, tid ∈ histoIds
        [[⟨⟨"t1", "r1", "d1"⟩⟩], [⟨⟨"t1", "r1", "d1"⟩⟩, ⟨⟨"t0", "r1", "d1"⟩⟩]] →
      tid ∉ ["t0"] →
      tid ∈ (runDispatch
        [[⟨⟨"t1", "r1", "d1"⟩⟩], [⟨⟨"t1", "r1", "d1"⟩⟩, ⟨⟨"t0", "r1", "d1"⟩⟩]]
        ["t0"]).2) :=
  C1_dedup_dispatch _ _

/-! ## Retry loop lemmas, C2 and C3 -/

theorem retryLoop_calls_le (client : Nat → Attempt) (fuel : Nat) (s : RetryState) :
    (retryLoop client fuel s).calls ≤ s.calls + fuel := by
  induction fuel generalizing s with
  | zero => simp [retryLoop]
  | succ n ih =>
    simp only [retryLoop]
    split
    · simp
    · refine le_trans (ih _) ?_
      simp
      omega

theorem retryLoop_lastUpdate_of_success (client : Nat → Attempt) (fuel : Nat)
    (s : RetryState)
    (hs : ∀ th u rest, s.err = none → s.history = some th →
      th.taskUpdates = u :: rest → s.lastUpdate = some u) :
    ∀ th u rest, (retryLoop client fuel s).err = none →
      (retryLoop client fuel s).history = some th →
      th.taskUpdates = u :: rest →
      (retryLoop client fuel s).lastUpdate = some u := by
  induction fuel generalizing s with
  | zero => exact hs
  | succ n ih =>
    simp only [retryLoop]
    split
    · intro th u rest _ h2 h3
      simp only [Option.some.injEq] at h2
      subst h2
      simp only [h3]
    · refine ih _ ?_
      intro th u rest h1
      simp at h1

theorem retryLoop_lastUpdate_none (client : Nat → Attempt)
    (hclient : ∀ k, (client k).err ≠ none → (client k).history.taskUpdates = [])
    (fuel : Nat) (s : RetryState) (hlu : s.lastUpdate = none) :
    ∀ th, (retryLoop client fuel s).err = none →
      (retryLoop client fuel s).history = some th →
      th.taskUpdates = [] →
      (retryLoop client fuel s).lastUpdate = none := by
  induction fuel generalizing s with
  | zero => intro th _ _ _; exact hlu
  | succ n ih =>
    simp only [retryLoop]
    split
    · intro th _ h2 h3
      simp only [Option.some.injEq] at h2
      subst h2
      simp only [h3]
      exact hlu
    · next e heq =>
      have hemp := hclient s.calls (by simp [heq])
      exact ih _ (by simp [hemp, hlu])

/-- C3: the Retrying Fetcher makes at most 3 upstream calls; the loop exits
immediately after the first call that returns without error (having made
exactly that many calls, keeping the history of that call); and when all 3
attempts error, getTask ends as the logged soft failure that sends nothing
on the lines channel, so the task contributes no report row and no cache
row and the run continues. -/
theorem C3_retry_bound (url : String) (id : SingularityTaskId)
    (reqs : List SingularityRequestParent) (client : Nat → Attempt) :
    (retryLoop client 3 initRetryState).calls ≤ 3 ∧
    (∀ k, k < 3 → (client k).err = none →
      (∀ j, j < k → (client j).err ≠ none) →
      (retryLoop client 3 initRetryState).calls = k + 1 ∧
      (retryLoop client 3 initRetryState).err = none ∧
      (retryLoop client 3 initRetryState).history = some (client k).history) ∧
    ((∀ j, j < 3 → (client j).err ≠ none) →
      getTask url (some id) reqs client = .dropped "fetch error") := by
  refine ⟨?_, ?_, ?_⟩
  · simpa [initRetryState] using retryLoop_calls_le client 3 initRetryState
  · intro k hk hsucc hbefore
    interval_cases k
    · simp [retryLoop, initRetryState, hsucc]
    · obtain ⟨e0, he0⟩ := Option.ne_none_iff_exists'.mp (hbefore 0 (by omega))
      simp [retryLoop, initRetryState, he0, hsucc]
    · obtain ⟨e0, he0⟩ := Option.ne_none_iff_exists'.mp (hbefore 0 (by omega))
      obtain ⟨e1, he1⟩ := Option.ne_none_iff_exists'.mp (hbefore 1 (by omega))
      simp [retryLoop, initRetryState, he0, he1, hsucc]
  · intro hall
    obtain ⟨e0, he0⟩ := Option.ne_none_iff_exists'.mp (hall 0 (by omega))
    obtain ⟨e1, he1⟩ := Option.ne_none_iff_exists'.mp (hall 1 (by omega))
    obtain ⟨e2, he2⟩ := Option.ne_none_iff_exists'.mp (hall 2 (by omega))
    simp [getTask, retryLoop, initRetryState, he0, he1, he2, selectLastUpdate]

/-- Witness for C3 at concrete clients: a client that only succeeds on its
third call is called 3 times and keeps the third history, and a client
that always fails yields the logged drop. -/
theorem C3_retry_bound_witness :
    ((retryLoop sampleFlakyClient 3 initRetryState).calls = 2 + 1 ∧
      (retryLoop sampleFlakyClient 3 initRetryState).err = none ∧
      (retryLoop sampleFlakyClient 3 initRetryState).history =
        some (sampleFlakyClient 2).history) ∧
    getTask "http://s" (some sampleId) sampleReqs sampleDeadClient =
      .dropped "fetch error" :=
  ⟨(C3_retry_bound "http://s" sampleId sampleReqs sampleFlakyClient).2.1 2
      (by omega) (by decide) (by decide),
   (C3_retry_bound "http://s" sampleId sampleReqs sampleDeadClient).2.2
      (by decide)⟩

theorem mOp_assoc (a b c : TaskHistoryUpdate) :
    mOp (mOp a b) c = mOp a (mOp b c) := by
  unfold mOp
  split_ifs <;> first | rfl | (exfalso; omega)

theorem goScan_mOp (l : List TaskHistoryUpdate) (a u : TaskHistoryUpdate) :
    mOp a (goScan u l) = goScan (mOp a u) l := by
  induction l generalizing u with
  | nil => rfl
  | cons w rest ih =>
    simp only [goScan]
    rw [ih, mOp_assoc]

theorem specLatest_eq_goScan (l : List TaskHistoryUpdate) (a : TaskHistoryUpdate) :
    specLatest (a :: l) = some (goScan a l) := by
  induction l generalizing a with
  | nil => rfl
  | cons u rest ih =>
    calc specLatest (a :: u :: rest)
        = match specLatest (u :: rest) with
          | none => some a
          | some v => if v.timestamp > a.timestamp then some v else some a := rfl
      _ = if (goScan u rest).timestamp > a.timestamp then some (goScan u rest)
          else some a := by rw [ih]
      _ = some (mOp a (goScan u rest)) := by
          by_cases hgt : (goScan u rest).timestamp > a.timestamp <;>
            simp [mOp, hgt]
      _ = some (goScan (mOp a u) rest) := by rw [goScan_mOp]
      _ = some (goScan a (u :: rest)) := rfl

theorem goScan_head (u : TaskHistoryUpdate) (rest : List TaskHistoryUpdate) :
    goScan u (u :: rest) = goScan u rest := by
  simp [goScan, mOp]

/-- C2: after a fetch whose final (successful) call returned a non-empty
TaskUpdates list, the selected latest status is exactly the maximum-by-
timestamp update of that list with ties resolved to the first encountered
(specLatest); and when the update list of the successful call is empty - under the
client contract that an errored call delivers no updates - the latest
status is left nil, with no error (the selection yields a value, not the
nil-dereference outcome). -/
theorem C2_latest_selection (client : Nat → Attempt) (th : SingularityTaskHistory)
    (herr : (retryLoop client 3 initRetryState).err = none)
    (hh : (retryLoop client 3 initRetryState).history = some th) :
    (∀ u rest, th.taskUpdates = u :: rest →
      selectLastUpdate (retryLoop client 3 initRetryState) =
        some (specLatest th.taskUpdates)) ∧
    ((∀ k, (client k).err ≠ none → (client k).history.taskUpdates = []) →
      th.taskUpdates = [] →
      selectLastUpdate (retryLoop client 3 initRetryState) = some none) := by
  constructor
  · intro u rest hupd
    have hlu := retryLoop_lastUpdate_of_success client 3 initRetryState
      (by intro th' u' rest' _ h2; simp [initRetryState] at h2)
      th u rest herr hh hupd
    simp only [selectLastUpdate, hh, hlu, hupd]
    rw [goScan_head, specLatest_eq_goScan]
  · intro hclient hupd
    have hlu := retryLoop_lastUpdate_none client hclient 3 initRetryState rfl
      th herr hh hupd
    simp only [selectLastUpdate, hh, hlu, hupd]

/-- Witness for C2: against the concrete client whose successful call
returns timestamps 5, 9, 9, the selected status is the first of the two
timestamp-9 updates. -/
theorem C2_latest_selection_witness :
    selectLastUpdate (retryLoop sampleClient 3 initRetryState) =
      some (specLatest sampleHistory.taskUpdates) ∧
    specLatest sampleHistory.taskUpdates = some ⟨9, "B"⟩ :=
  ⟨(C2_latest_selection sampleClient sampleHistory rfl rfl).1
      ⟨5, "TASK_LAUNCHED"⟩ [⟨9, "B"⟩, ⟨9, "C"⟩] rfl,
   by decide⟩

/-! ## getTask inversion, C9 and C10 -/

theorem getTask_sent_inv (url : String) (id : SingularityTaskId)
    (reqs : List SingularityRequestParent) (client : Nat → Attempt)
    (td : taskDesc) (h : getTask url (some id) reqs client = .sent td) :
    ∃ t lastUpd c,
      (retryLoop client 3 initRetryState).err = none ∧
      (retryLoop client 3 initRetryState).task = some t ∧
      selectLastUpdate (retryLoop client 3 initRetryState) = some lastUpd ∧
      (∃ mesos cmd env, t.mesosTask = some mesos ∧
        mesos.container = some c ∧ mesos.command = some cmd ∧
        cmd.environment = some env) ∧
      td = ⟨id, some t, correlate reqs id, lastUpd, c.docker, url⟩ := by
  simp only [getTask] at h
  split at h
  · simp at h
  next herr =>
    split at h
    · simp at h
    next lastUpd hsel =>
      split at h
      · simp at h
      next t htask =>
        split at h
        · simp at h
        next mesos hmesos =>
          split at h
          · simp at h
          next c hcont =>
            split at h
            · simp at h
            next cmd hcmd =>
              split at h
              · simp at h
              next env henv =>
                injection h with h2
                exact ⟨t, lastUpd, c, herr, htask, hsel,
                  ⟨mesos, cmd, env, hmesos, hcont, hcmd, henv⟩, h2.symm⟩

theorem find?_first {α : Type} (p : α → Bool) (l : List α) (r : α)
    (h : l.find? p = some r) :
    p r = true ∧ ∃ l1 l2, l = l1 ++ r :: l2 ∧ ∀ x ∈ l1, p x = false := by
  induction l with
  | nil => simp at h
  | cons a rest ih =>
    by_cases hpa : p a = true
    · rw [List.find?_cons_of_pos _ hpa] at h
      simp only [Option.some.injEq] at h
      subst h
      exact ⟨hpa, [], rest, rfl, by simp⟩
    · rw [List.find?_cons_of_neg _ (by simpa using hpa)] at h
      obtain ⟨h1, l1, l2, rfl, h2⟩ := ih h
      refine ⟨h1, a :: l1, l2, rfl, ?_⟩
      intro x hx
      rcases List.mem_cons.mp hx with rfl | hx2
      · simpa using hpa
      · exact h2 x hx2

/-- C9: the Record Correlator is the linear first-match scan - a nil result
means no request in the list carries the requestID of the task, and a non-nil
result is a matching request preceded only by non-matching ones; every
record sent by getTask carries exactly that scan result, and a record
that is sent for one request list is sent for any other request list as
well (so a correlation miss never suppresses the record and raises no
error), only its request-context field changing. -/
theorem C9_correlator :
    (∀ (reqs : List SingularityRequestParent) (id : SingularityTaskId),
      (correlate reqs id = none →
        ∀ r ∈ reqs, r.request.id ≠ id.requestId) ∧
      (∀ r, correlate reqs id = some r → r.request.id = id.requestId ∧
        ∃ l1 l2, reqs = l1 ++ r :: l2 ∧
          ∀ x ∈ l1, x.request.id ≠ id.requestId)) ∧
    (∀ url id reqs client td,
      getTask url (some id) reqs client = .sent td →
      td.requestParent = correlate reqs id ∧
      ∀ reqs2, ∃ td2, getTask url (some id) reqs2 client = .sent td2 ∧
        td2.requestParent = correlate reqs2 id) := by
  constructor
  · intro reqs id
    constructor
    · intro hnone r hr
      have := List.find?_eq_none.mp hnone r hr
      simpa using this
    · intro r hsome
      obtain ⟨h1, l1, l2, rfl, h2⟩ := find?_first _ _ _ hsome
      refine ⟨by simpa using h1, l1, l2, rfl, ?_⟩
      intro x hx
      have := h2 x hx
      simpa using this
  · intro url id reqs client td h
    obtain ⟨t, lastUpd, c, herr, htask, hsel, ⟨mesos, cmd, env, hm, hc, hcm, he⟩,
      rfl⟩ := getTask_sent_inv url id reqs client td h
    refine ⟨rfl, ?_⟩
    intro reqs2
    refine ⟨⟨id, some t, correlate reqs2 id, lastUpd, c.docker, url⟩, ?_, rfl⟩
    simp only [getTask, herr, hsel, htask, hm, hc, hcm, he]

/-- Witness for C9: against the concrete two-request listing, the record
sent for sampleId carries the second request (the first match), and with
an empty request list the record is still sent, with a nil context. -/
theorem C9_correlator_witness :
    (getTask "http://s" (some sampleId) sampleReqs sampleClient =
        .sent ⟨sampleId, some sampleTask,
          some ⟨⟨"r1", 2, "SERVICE"⟩, "ACTIVE"⟩, some ⟨9, "B"⟩,
          some ⟨"img:1"⟩, "http://s"⟩) ∧
    (⟨sampleId, some sampleTask, some ⟨⟨"r1", 2, "SERVICE"⟩, "ACTIVE"⟩,
        some ⟨9, "B"⟩, some ⟨"img:1"⟩, "http://s"⟩ : taskDesc).requestParent =
      correlate sampleReqs sampleId ∧
    (∃ td2, getTask "http://s" (some sampleId) [] sampleClient = .sent td2 ∧
      td2.requestParent = correlate [] sampleId) := by
  have h : getTask "http://s" (some sampleId) sampleReqs sampleClient =
      .sent ⟨sampleId, some sampleTask,
        some ⟨⟨"r1", 2, "SERVICE"⟩, "ACTIVE"⟩, some ⟨9, "B"⟩,
        some ⟨"img:1"⟩, "http://s"⟩ := by decide
  have h2 := C9_correlator.2 "http://s" sampleId sampleReqs sampleClient _ h
  exact ⟨h, h2.1, h2.2 []⟩

/-- C10: every record getTask sends on the lines channel has non-nil task
metadata, mesos info, command and environment; consequently the Env()
accessor yields that environment, and the unguarded env.Variables reads in
taskValues and in the store addTask succeed (no nil dereference) on every
channel-delivered record, for any options and any write outcomes. -/
theorem C10_sent_records_safe (url : String) (id : SingularityTaskId)
    (reqs : List SingularityRequestParent) (client : Nat → Attempt)
    (td : taskDesc) (h : getTask url (some id) reqs client = .sent td) :
    (∃ t mesos cmd env, td.task = some t ∧ t.mesosTask = some mesos ∧
      mesos.command = some cmd ∧ cmd.environment = some env ∧
      taskDesc.envGo td = .ok (some env)) ∧
    (∀ opts, ∃ vals, taskValues opts td = .ok vals) ∧
    (∀ oc, ∃ eff, addTaskEffects td oc = .ok eff) := by
  obtain ⟨t, lastUpd, c, _, _, _, ⟨mesos, cmd, env, hm, _, hcm, he⟩, rfl⟩ :=
    getTask_sent_inv url id reqs client td h
  have henv : taskDesc.envGo
      ⟨id, some t, correlate reqs id, lastUpd, c.docker, url⟩ =
      .ok (some env) := by
    simp [taskDesc.envGo, hm, hcm, he]
  refine ⟨⟨t, mesos, cmd, env, rfl, hm, hcm, he, henv⟩, ?_, ?_⟩
  · intro opts
    cases hres : taskValues opts
        ⟨id, some t, correlate reqs id, lastUpd, c.docker, url⟩ with
    | ok v => exact ⟨v, rfl⟩
    | error e =>
      exfalso
      simp only [taskValues, henv] at hres
      exact Except.noConfusion hres
  · intro oc
    cases hres : addTaskEffects
        ⟨id, some t, correlate reqs id, lastUpd, c.docker, url⟩ oc with
    | ok v => exact ⟨v, rfl⟩
    | error e =>
      exfalso
      simp only [addTaskEffects, henv] at hres
      split at hres
      · simp at hres
      · split at hres
        · simp at hres
        · simp at hres

/-- Witness for C10 at the concrete channel record produced by
sampleClient: its environment resolves and taskValues succeeds. -/
theorem C10_sent_records_safe_witness :
    (∃ t mesos cmd env,
      (⟨sampleId, some sampleTask, some ⟨⟨"r1", 2, "SERVICE"⟩, "ACTIVE"⟩,
        some ⟨9, "B"⟩, some ⟨"img:1"⟩, "http://s"⟩ : taskDesc).task = some t ∧
      t.mesosTask = some mesos ∧ mesos.command = some cmd ∧
      cmd.environment = some env ∧
      taskDesc.envGo ⟨sampleId, some sampleTask,
        some ⟨⟨"r1", 2, "SERVICE"⟩, "ACTIVE"⟩, some ⟨9, "B"⟩,
        some ⟨"img:1"⟩, "http://s"⟩ = .ok (some env)) ∧
    (∀ opts, ∃ vals, taskValues opts
      ⟨sampleId, some sampleTask, some ⟨⟨"r1", 2, "SERVICE"⟩, "ACTIVE"⟩,
        some ⟨9, "B"⟩, some ⟨"img:1"⟩, "http://s"⟩ = .ok vals) ∧
    (∀ oc, ∃ eff, addTaskEffects
      ⟨sampleId, some sampleTask, some ⟨⟨"r1", 2, "SERVICE"⟩, "ACTIVE"⟩,
        some ⟨9, "B"⟩, some ⟨"img:1"⟩, "http://s"⟩ oc = .ok eff) :=
  C10_sent_records_safe "http://s" sampleId sampleReqs sampleClient _ (by decide)

/-! ## Sink printability (C6) and addTask failure policy (C8) -/

/-- C6 fails on the code: a channel record with no status update at all is
printable under the spec predicate (claimPrintable), but the own
debug call dereferences the nil update before the predicate is evaluated,
so the code neither prints nor forwards such a record - it crashes.  For
records that do carry an update, the predicate and the unconditional cache
dispatch behave exactly as the claim states: a running task is suppressed
from the report only when the include-inactive flag is off, and is
forwarded to the cache either way. -/
theorem C6_nil_update_deref :
    claimPrintable sampleNilUpdateDesc defaultOpts = true ∧
    printableGo sampleNilUpdateDesc defaultOpts = .error () ∧
    tabRowsStep sampleNilUpdateDesc defaultOpts = .error () ∧
    tabRowsStep sampleDesc defaultOpts = .ok ⟨false, true⟩ ∧
    tabRowsStep sampleDesc ⟨true, false, false, []⟩ = .ok ⟨true, true⟩ ∧
    tabRowsStep ⟨sampleId, some sampleTask, none, some ⟨9, "TASK_RUNNING"⟩,
      none, "http://s"⟩ defaultOpts = .ok ⟨true, true⟩ := by
  refine ⟨rfl, rfl, rfl, ?_, rfl, rfl⟩
  rfl

/-- For records that do carry a status update, printable computes exactly
exactly the predicate of the claim, and tabRows forwards the record to the cache store
whether or not it is printable. -/
theorem printableGo_some_agrees (desc : taskDesc) (opts : Options)
    (u : TaskHistoryUpdate) (hu : desc.lastUpdate = some u) :
    printableGo desc opts = .ok (claimPrintable desc opts) ∧
    tabRowsStep desc opts = .ok ⟨claimPrintable desc opts, true⟩ := by
  simp [printableGo, claimPrintable, tabRowsStep, hu]

/-- Witness for printableGo_some_agrees at a concrete non-running record:
suppressed from the report, still dispatched to the cache. -/
theorem printableGo_some_agrees_witness :
    printableGo sampleDesc defaultOpts = .ok (claimPrintable sampleDesc defaultOpts) ∧
    tabRowsStep sampleDesc defaultOpts =
      .ok ⟨claimPrintable sampleDesc defaultOpts, true⟩ :=
  printableGo_some_agrees sampleDesc defaultOpts ⟨9, "B"⟩ rfl

/-- C8 fails on the code for the env and docker rows: a failed env-pair
insert is skipped (no row) but produces no log line, because addTask
discards the Exec result and its error test reads the stale nil err
variable; a failed request-row write, by contrast, is logged and skipped.
In both cases addTask returns normally - no error ever propagates. -/
theorem C8_env_error_unlogged :
    addTaskEffects sampleDesc ⟨none, none, [some "env insert failed"], none⟩ =
      .ok ⟨[], true, true, 0, true⟩ ∧
    addTaskEffects sampleDesc ⟨none, none, [], some "docker insert failed"⟩ =
      .ok ⟨[], true, true, 1, false⟩ ∧
    addTaskEffects sampleDesc ⟨some "req insert failed", none, [], none⟩ =
      .ok ⟨["error getting request"], false, false, 0, false⟩ ∧
    addTaskEffects sampleDesc ⟨none, some "task insert failed", [], none⟩ =
      .ok ⟨["error inserting task"], true, false, 0, false⟩ := by
  refine ⟨rfl, rfl, rfl, rfl⟩

/-! ## Cache store: addReq freshness (C4) and groom (C5) -/

/-- C4: when the first req row found for a request_ident is younger than
one second relative to the single process-start now, addReq returns that
id of that row and leaves the store untouched; when it is one second old or
older, addReq deletes that row (its task children and their env and
docker_image children cascading away), inserts a fresh row whose
captured_at is now, and returns the id of the fresh row. -/
theorem C4_request_freshness (st : DBState) (now singID instances : Int)
    (reqID reqType stv : String) (row : ReqRow)
    (hfind : st.reqs.find? (fun r => r.requestIdent == reqID) = some row)
    (hid : row.reqId ≠ 0) :
    (now - row.capturedAt < oneSecond →
      addReq now st singID instances reqID reqType stv = (st, row.reqId)) ∧
    (oneSecond ≤ now - row.capturedAt →
      (addReq now st singID instances reqID reqType stv).2 = st.nextReqId ∧
      (addReq now st singID instances reqID reqType stv).1.reqs =
        st.reqs.filter (fun r => !(r.reqId == row.reqId)) ++
          [⟨st.nextReqId, singID, reqID, instances, reqType, stv, now⟩] ∧
      (addReq now st singID instances reqID reqType stv).1.tasks =
        st.tasks.filter (fun t => !(t.reqId == row.reqId)) ∧
      (addReq now st singID instances reqID reqType stv).1.envs =
        st.envs.filter (fun e =>
          !(((st.tasks.filter (fun t => t.reqId == row.reqId)).map
              (fun t => t.taskId)).contains e.taskId)) ∧
      (addReq now st singID instances reqID reqType stv).1.dockers =
        st.dockers.filter (fun d =>
          !(((st.tasks.filter (fun t => t.reqId == row.reqId)).map
              (fun t => t.taskId)).contains d.taskId))) := by
  constructor
  · intro hfresh
    simp only [addReq, hfind]
    rw [if_pos hid, if_pos hfresh]
  · intro hstale
    simp only [addReq, hfind]
    rw [if_pos hid, if_neg (not_lt.mpr hstale)]
    simp [insertReq, cascadeDeleteReq]

/-- Witness for C4 on the concrete sample store: a repeat insert at now = 0
(within the window of the row captured at 0) reuses row id 1 and changes
nothing; an insert at now = one second gets the next fresh id 2. -/
theorem C4_request_freshness_witness :
    (addReq 0 sampleDB 1 2 "r1" "SERVICE" "ACTIVE" = (sampleDB, 1)) ∧
    ((addReq oneSecond sampleDB 1 2 "r1" "SERVICE" "ACTIVE").2 =
      sampleDB.nextReqId) :=
  ⟨(C4_request_freshness sampleDB 0 1 2 "r1" "SERVICE" "ACTIVE"
      ⟨1, 1, "r1", 2, "SERVICE", "ACTIVE", 0⟩ (by decide) (by decide)).1
      (by decide),
   ((C4_request_freshness sampleDB oneSecond 1 2 "r1" "SERVICE" "ACTIVE"
      ⟨1, 1, "r1", 2, "SERVICE", "ACTIVE", 0⟩ (by decide) (by decide)).2
      (by decide)).1⟩

set_option maxRecDepth 100000

/-- C5: grooming with a stored fingerprint equal to the compiled schema
fingerprint is a no-op that keeps every row; grooming with an absent or
different fingerprint empties every table and stores the new fingerprint
together with the creation timestamp; and for the program schema
statement list, swapping any two distinct positions changes the
fingerprint, because each statement enters the hash prefixed by its
ordinal position. -/
theorem C5_groom_fingerprint (st : DBState) (schema : List String)
    (stamp : String) :
    (st.fingerprint = some (fingerPrintSchema schema) →
      groom st schema stamp = st) ∧
    (st.fingerprint ≠ some (fingerPrintSchema schema) →
      (groom st schema stamp).sings = [] ∧
      (groom st schema stamp).reqs = [] ∧
      (groom st schema stamp).tasks = [] ∧
      (groom st schema stamp).envs = [] ∧
      (groom st schema stamp).dockers = [] ∧
      (groom st schema stamp).fingerprint = some (fingerPrintSchema schema) ∧
      (groom st schema stamp).created = some stamp) ∧
    (∀ i, i < cygnusSchema.length → ∀ j, j < cygnusSchema.length → i ≠ j →
      fingerPrintSchema (listSwap cygnusSchema i j) ≠
        fingerPrintSchema cygnusSchema) := by
  refine ⟨?_, ?_, ?_⟩
  · intro hfp
    simp [groom, hfp]
  · intro hfp
    cases hcur : st.fingerprint with
    | none => simp [groom, hcur, groomRebuild]
    | some tgp =>
      have hne : tgp ≠ fingerPrintSchema schema := by
        intro hcontra
        exact hfp (by rw [hcur, hcontra])
      simp [groom, hcur, hne, groomRebuild]
  · decide

/-- Witness for C5: grooming the sample store (whose stored fingerprint is
the compiled schema fingerprint) is a no-op, and grooming a store with a divergent
fingerprint rebuilds, emptying the req table and storing the compiled
fingerprint. -/
theorem C5_groom_fingerprint_witness :
    groom sampleDB cygnusSchema "stamp" = sampleDB ∧
    ((groom (groomRebuild "old" "then") cygnusSchema "stamp").reqs = [] ∧
      (groom (groomRebuild "old" "then") cygnusSchema "stamp").fingerprint =
        some (fingerPrintSchema cygnusSchema)) :=
  ⟨(C5_groom_fingerprint sampleDB cygnusSchema "stamp").1 rfl,
   ⟨((C5_groom_fingerprint (groomRebuild "old" "then") cygnusSchema "stamp").2.1
      (by decide)).2.1,
    ((C5_groom_fingerprint (groomRebuild "old" "then") cygnusSchema "stamp").2.1
      (by decide)).2.2.2.2.2.1⟩⟩

/-! ## Completion barrier (C7) -/

theorem isShuffle_count (xs ys zs : List WgEv)
    (h : isShuffle xs ys zs = true) (e : WgEv) :
    zs.count e = xs.count e + ys.count e := by
  induction zs generalizing xs ys with
  | nil =>
    cases xs with
    | nil =>
      simp only [isShuffle, beq_iff_eq] at h
      subst h
      simp
    | cons x xs =>
      cases ys with
      | nil => simp [isShuffle] at h
      | cons y ys => simp [isShuffle] at h
  | cons z zs ih =>
    cases xs with
    | nil =>
      simp only [isShuffle, beq_iff_eq] at h
      subst h
      simp
    | cons x xs =>
      cases ys with
      | nil =>
        simp only [isShuffle, beq_iff_eq] at h
        rw [← h]
        simp
      | cons y ys =>
        simp only [isShuffle, Bool.or_eq_true, Bool.and_eq_true,
          beq_iff_eq] at h
        rcases h with ⟨rfl, h1⟩ | ⟨rfl, h2⟩
        · have hc := ih xs (y :: ys) h1
          simp only [List.count_cons, hc]
          split <;> omega
        · have hc := ih (x :: xs) ys h2
          simp only [List.count_cons, hc]
          split <;> omega

/-- C7 as stated is false of the code: the synchronization of tabRows
admits a schedule in which the counter reaches zero - releasing the main
flow wait - after the consumer side Done but before the spawned closure has
even performed its Add, so the main flow exits before the cache
write runs.  The Add for the cache write is inside the spawned unit, hence
not visible before the decrement that lets the barrier reach zero. -/
theorem C7_counterexample_exit_before_write :
    admissible [WgEv.spawnCache, .doneOuter, .exitMain, .addCache,
      .cacheWrite, .doneCache] ∧
    evIdx .exitMain [WgEv.spawnCache, .doneOuter, .exitMain, .addCache,
      .cacheWrite, .doneCache] <
    evIdx .cacheWrite [WgEv.spawnCache, .doneOuter, .exitMain, .addCache,
      .cacheWrite, .doneCache] :=
  ⟨⟨⟨[WgEv.spawnCache, .doneOuter, .addCache, .cacheWrite, .doneCache],
      by decide, by decide⟩, by decide, by decide⟩, by decide⟩

/-- C7 amended: in every schedule the synchronization admits, the counter
operations happen exactly once per terminal outcome - one consumer-side
decrement, one cache-side increment, one cache write and one cache-side
decrement - but the visibility guarantee of the original claim does not
hold: there is an admissible schedule in which the exit of the main flow
precedes the cache write. -/
theorem C7_barrier_accounting :
    (∀ tr, admissible tr →
      tr.count WgEv.doneOuter = 1 ∧ tr.count WgEv.addCache = 1 ∧
      tr.count WgEv.doneCache = 1 ∧ tr.count WgEv.cacheWrite = 1) ∧
    (∃ tr, admissible tr ∧
      evIdx .exitMain tr < evIdx .cacheWrite tr) := by
  constructor
  · rintro tr ⟨⟨w, hw1, hw2⟩, -, -⟩
    have hb := fun e => isShuffle_count consumerThread cacheThread w hw1 e
    have ht := fun e => isShuffle_count w [WgEv.exitMain] tr hw2 e
    refine ⟨?_, ?_, ?_, ?_⟩ <;>
      (rw [ht, hb]; decide)
  · refine ⟨[WgEv.spawnCache, .doneOuter, .exitMain, .addCache,
      .cacheWrite, .doneCache],
      ⟨⟨[WgEv.spawnCache, .doneOuter, .addCache, .cacheWrite, .doneCache],
        by decide, by decide⟩, by decide, by decide⟩, by decide⟩

/-- Witness for the amended C7 accounting at a concrete admissible schedule
in which the cache write does complete before the exit. -/
theorem C7_barrier_accounting_witness :
    [WgEv.spawnCache, .addCache, .cacheWrite, .doneCache, .doneOuter,
      .exitMain].count WgEv.doneOuter = 1 ∧
    [WgEv.spawnCache, .addCache, .cacheWrite, .doneCache, .doneOuter,
      .exitMain].count WgEv.addCache = 1 ∧
    [WgEv.spawnCache, .addCache, .cacheWrite, .doneCache, .doneOuter,
      .exitMain].count WgEv.doneCache = 1 ∧
    [WgEv.spawnCache, .addCache, .cacheWrite, .doneCache, .doneOuter,
      .exitMain].count WgEv.cacheWrite = 1 :=
  C7_barrier_accounting.1
    [WgEv.spawnCache, .addCache, .cacheWrite, .doneCache, .doneOuter,
      .exitMain]
    ⟨⟨[WgEv.spawnCache, .addCache, .cacheWrite, .doneCache, .doneOuter],
      by decide, by decide⟩, by decide, by decide⟩

end Cygnus
